import Mathlib

/-!
Verification of the TikZJax plugin rendering pipeline (src/main.ts).

Text is modelled as `List Char` (wrapped back into `String` at the API
boundary), and the JavaScript string operations the plugin uses are embedded
as structural recursions so every computation reduces by `rfl`/`decide`:

* `String.prototype.replaceAll` with a string pattern, and with a regex
  alternation of literal tokens (`/("#000"|"black")/g`), is `substAll`:
  a single left-to-right, non-overlapping scan that, at each position,
  tries the alternatives in order and skips past a match.
* `String.prototype.trim` / `trimStart` with the usual whitespace set is
  `trimL` / `dropWhile isJsWs`.
* `String.prototype.split("\n")` is `splitCh '\n'` and `Array.join` is
  `joinWith`.

DOM facts used by the embedding (stated here once, relied on below):
* `querySelectorAll('[id]')` returns a static list of the *descendant*
  elements carrying an `id` attribute, in document order; the root element
  itself is never included.
* Assigning `innerHTML` replaces the children but leaves the root element
  node — in particular its own attributes — untouched; the previously
  collected descendant nodes become detached and keep their original `id`,
  so each loop iteration of `isolateIds` reads the *original* id even after
  earlier `innerHTML` assignments.
* `addEventListener` with an identical (type, callback) pair already
  registered is a no-op; `removeEventListener` removes that registration.
* `getElementById` returns the first element in document order with the
  given id, and `remove()` detaches exactly that element; calling `.remove()`
  on the `null` returned for a missing id throws a `TypeError`.
-/

namespace Tikzjax

/-- The whitespace class of JavaScript `trim`/`trimStart` and of regex `\s`
(the characters that can realistically occur here: ASCII blanks and NBSP). -/
def isJsWs (c : Char) : Bool :=
  c == ' ' || c == '\t' || c == '\n' || c == '\r' ||
  c == '\x0b' || c == '\x0c' || c == ' '

/-- JavaScript `String.prototype.trim` on a list of characters. -/
def trimL (l : List Char) : List Char :=
  ((l.dropWhile isJsWs).reverse.dropWhile isJsWs).reverse

/-- JavaScript `String.prototype.split(ch)` (for a one-character separator). -/
def splitCh (ch : Char) : List Char → List (List Char)
  | [] => [[]]
  | c :: cs =>
    if c == ch then
      [] :: splitCh ch cs
    else
      match splitCh ch cs with
      | [] => [[c]]
      | p :: ps => (c :: p) :: ps

/-- JavaScript `Array.prototype.join(sep)` on lists of characters. -/
def joinWith (sep : List Char) : List (List Char) → List Char
  | [] => []
  | [p] => p
  | p :: q :: ps => p ++ sep ++ joinWith sep (q :: ps)

/-- First rule (pattern, replacement) whose pattern matches at the head of
`l`; regex alternation tries alternatives left to right. -/
def matchRule (rules : List (List Char × List Char)) (l : List Char) :
    Option (List Char × List Char) :=
  rules.find? (fun r => r.1.isPrefixOf l)

/-- One left-to-right, non-overlapping substitution scan (the semantics of
`replaceAll` with a global regex of literal alternatives, or with a literal
string pattern when `rules` is a singleton).  `fuel` is the number of scan
steps still allowed; every step consumes at least one character, so
`l.length` steps always suffice. -/
def substAux : Nat → List (List Char × List Char) → List Char → List Char
  | 0, _, l => l
  | _ + 1, _, [] => []
  | fuel + 1, rules, c :: cs =>
    match matchRule rules (c :: cs) with
    | some r => r.2 ++ substAux fuel rules (List.drop r.1.length (c :: cs))
    | none => c :: substAux fuel rules cs

/-- Full `replaceAll` over a `String`. -/
def substAll (rules : List (List Char × List Char)) (s : String) : String :=
  ⟨substAux s.data.length rules s.data⟩

/-- Whether `pat` occurs as a contiguous substring of `l`. -/
def hasSub (pat : List Char) : List Char → Bool
  | [] => pat.isEmpty
  | c :: cs => pat.isPrefixOf (c :: cs) || hasSub pat cs

/-- Number of (possibly overlapping) occurrences of `pat` in `l`. -/
def countSub (pat : List Char) : List Char → Nat
  | [] => 0
  | c :: cs => (if pat.isPrefixOf (c :: cs) then 1 else 0) + countSub pat cs

/-! Section: `tidyTikzSource` (src/main.ts lines 142-159). -/

/-- The single rewrite rule of `tikzSource.replaceAll("&nbsp;", "")`. -/
def nbspRule : List (List Char × List Char) := [("&nbsp;".data, [])]

/-- The line list built by `tidyTikzSource`: after removing literal `&nbsp;`
sequences, split into lines, trim each line, drop lines that became empty. -/
def tidyLines (s : String) : List (List Char) :=
  ((splitCh '\n' (substAll nbspRule s).data).map trimL).filter (fun l => !l.isEmpty)

/-- Function `tidyTikzSource`: remove literal `&nbsp;` sequences, split into lines,
trim each line, drop lines that became empty, rejoin with newlines. -/
def tidyTikzSource (s : String) : String :=
  ⟨joinWith ['\n'] (tidyLines s)⟩

/-! Section: `colorSVGinDarkMode` (src/main.ts lines 162-171). -/

/-- Rules of the first pass `.replaceAll(/("#000"|"black")/g, "currentColor"
in quotes)`: the regex alternatives are the *quoted* literals. -/
def darkRules1 : List (List Char × List Char) :=
  [("\"#000\"".data, "\"currentColor\"".data),
   ("\"black\"".data, "\"currentColor\"".data)]

/-- Rules of the second pass `.replaceAll(/("#fff"|"white")/g, ...)`. -/
def darkRules2 : List (List Char × List Char) :=
  [("\"#fff\"".data, "\"var(--background-primary)\"".data),
   ("\"white\"".data, "\"var(--background-primary)\"".data)]

/-- Function `colorSVGinDarkMode`: the 000/black pass followed by the fff/white pass. -/
def colorSVGinDarkMode (s : String) : String :=
  substAll darkRules2 (substAll darkRules1 s)

/-- The four quoted literal tokens the recolor stage matches. -/
def recolorTokens : List (List Char) :=
  ["\"#000\"".data, "\"black\"".data, "\"#fff\"".data, "\"white\"".data]

/-! Section: the tikz code block parser (src/main.ts lines 96-129). -/

/-- Test `line.trimStart().startsWith("%")` selecting style-comment lines. -/
def isStyleLine (l : List Char) : Bool :=
  match l.dropWhile isJsWs with
  | '%' :: _ => true
  | _ => false

/-- Step `line.replace(/^%\s*/, "")`: the regex is anchored at the start of the
string, so it strips the `%` and following whitespace only when `%` is the
very first character; otherwise the line is returned unchanged. -/
def stripStylePct (l : List Char) : List Char :=
  match l with
  | c :: rest => if c = '%' then rest.dropWhile isJsWs else l
  | [] => l

/-- JavaScript `Array.prototype.findIndex` (with `none` for `-1`). -/
def jsFindIndex (p : α → Bool) : List α → Option Nat
  | [] => none
  | c :: cs => if p c then some 0 else (jsFindIndex p cs).map (· + 1)

/-- The lines of the source block. -/
def tikzLines (source : String) : List (List Char) :=
  splitCh '\n' source.data

/-- Value `codeStart`: index of the first line that is not a style-comment line
(`-1`, i.e. `none`, when every line is one). -/
def tikzCodeStart (source : String) : Option Nat :=
  jsFindIndex (fun l => !isStyleLine l) (tikzLines source)

/-- Region `lines.slice(0, codeStart === -1 ? lines.length : codeStart)`:
the lines the style loop iterates over. -/
def tikzStyleRegion (source : String) : List (List Char) :=
  match tikzCodeStart source with
  | none => tikzLines source
  | some i => (tikzLines source).take i

/-- Value `cssLines`: for each line before `codeStart`, strip the anchored `%`
prefix, trim, and keep the result when non-empty. -/
def tikzStyleLines (source : String) : List String :=
  (tikzStyleRegion source).filterMap (fun l =>
    let t := trimL (stripStylePct l)
    if t.isEmpty then none else some (String.mk t))

/-- Value `cssString`: the style declarations joined with `"; "`. -/
def tikzCssString (source : String) : String :=
  ⟨joinWith "; ".data ((tikzStyleLines source).map String.data)⟩

/-- Value `codeLines`: the lines from `codeStart` on (`[]` when every line is a
style-comment line). -/
def tikzCodeLines (source : String) : List (List Char) :=
  match tikzCodeStart source with
  | none => []
  | some i => (tikzLines source).drop i

/-- Value `cleanedSource = codeLines.join("\n")`. -/
def tikzCleanedSource (source : String) : String :=
  ⟨joinWith ['\n'] (tikzCodeLines source)⟩

/-- The text payload given to the placeholder script element:
`tidyTikzSource(cleanedSource)`. -/
def tikzScriptText (source : String) : String :=
  tidyTikzSource (tikzCleanedSource source)

/-! Section: `isolateIds` (src/main.ts lines 196-204).

The loop body is `svgEl.innerHTML = svgEl.innerHTML.replaceAll(oldId, newId)`.
`querySelectorAll('[id]')` is evaluated once, before any rewriting, and
returns the descendants carrying an id, in document order; after the first
`innerHTML` assignment those nodes are detached but `element.id` still reads
the original id, so the pass for the i-th element replaces the i-th
*original* id.  The fresh ids come from `uuidv4()`; the embedding takes the
ids and the drawn uuids as lists and folds the full-text replacement passes
in order. -/

/-- The sequence of full-text replacement passes performed by `isolateIds`
on the root's `innerHTML`: one `replaceAll oldId newId` per collected
element, in document order, each pass running on the output of the previous
one. -/
def isolateIdsHtml (pairs : List (String × String)) (html : String) : String :=
  pairs.foldl (fun h p => substAll [(p.1.data, p.2.data)] h) html

/-- The state of the rendered graphic's root element: its tag, its own
attributes, and its serialized children (`innerHTML`). -/
structure RootEl where
  tag : String
  attrs : List (String × String)
  inner : String
deriving DecidableEq

/-- Function `isolateIds(svgEl)`: `ids` are the id attribute values of the
descendants returned by `querySelectorAll('[id]')` (document order, never
the root itself), `uuids` the successive values returned by `uuidv4()`.
Only `innerHTML` is reassigned; the root node, and hence its own
attributes, are untouched. -/
def isolateIds (ids uuids : List String) (r : RootEl) : RootEl :=
  { r with inner := isolateIdsHtml (ids.zip uuids) r.inner }

/-- Serialization of an attribute list, as it appears in `outerHTML`. -/
def attrsHtml : List (String × String) → List Char
  | [] => []
  | (n, v) :: rest => ' ' :: (n.data ++ '=' :: '"' :: v.data ++ '"' :: attrsHtml rest)

/-- Serialized `outerHTML` of the root element. -/
def RootEl.outerHTML (r : RootEl) : String :=
  ⟨'<' :: (r.tag.data ++ attrsHtml r.attrs ++ '>' :: r.inner.data ++
    '<' :: '/' :: (r.tag.data ++ ['>']))⟩

/-! Section: `postProcessSvg` (src/main.ts lines 206-221). -/

/-- The plugin settings object; `invertColorsInDarkMode` is the one flag the
pipeline reads (src/settings.ts, consumed at line 214 of main.ts). -/
structure TikzjaxPluginSettings where
  invertColorsInDarkMode : Bool

/-- Handler `postProcessSvg`: isolate the ids in place, take `outerHTML`, recolor it
when `invertColorsInDarkMode` is set, minimize it, and return the markup
written back to `svgEl.outerHTML` in the single final assignment.
`opt` abstracts `optimizeSVG` (the external SVGO collaborator, called
unconditionally); `ids`/`uuids` are as in `isolateIds`. -/
def postProcessSvg (opt : String → String) (settings : TikzjaxPluginSettings)
    (ids uuids : List String) (r : RootEl) : String :=
  let svgEl := isolateIds ids uuids r
  let svg := svgEl.outerHTML
  let svg := if settings.invertColorsInDarkMode then colorSVGinDarkMode svg else svg
  opt svg

/-! Section: engine lifecycle, `loadTikZJax` / `unloadTikZJax`
(src/main.ts lines 45-61). -/

/-- A body element, reduced to what the lifecycle code inspects: its tag and
its id attribute. -/
structure DomElem where
  tag : String
  idAttr : String
deriving DecidableEq

/-- A document: its body's elements in document order, and its registered
event listeners (as (event, callback) registration keys; the DOM never
stores the same key twice). -/
structure DomDoc where
  body : List DomElem
  listeners : List String
deriving DecidableEq

/-- The one listener registration the plugin makes: the
`tikzjax-load-finished` event with the plugin's single `postProcessSvg`
closure. -/
def tikzListener : String := "tikzjax-load-finished/postProcessSvg"

/-- Method `doc.addEventListener`: registering an already-present (event, callback)
pair is a no-op. -/
def addEventListener (d : DomDoc) (k : String) : DomDoc :=
  if k ∈ d.listeners then d else { d with listeners := d.listeners ++ [k] }

/-- Method `doc.removeEventListener`: unregisters the pair when present. -/
def removeEventListener (d : DomDoc) (k : String) : DomDoc :=
  { d with listeners := d.listeners.erase k }

/-- Function `loadTikZJax(doc)`: append the engine script (id `tikzjax`) to the body,
then register the completion listener. -/
def loadTikZJax (d : DomDoc) : DomDoc :=
  addEventListener { d with body := d.body ++ [⟨"script", "tikzjax"⟩] } tikzListener

/-- Method `doc.getElementById`: first element in document order with the id. -/
def getElementById (d : DomDoc) (i : String) : Option DomElem :=
  d.body.find? (fun e => e.idAttr == i)

/-- Function `unloadTikZJax(doc)`: `getElementById("tikzjax")` then `s.remove()` —
when the element is missing, `s` is `null` and `.remove()` throws a
`TypeError` before the listener is touched; otherwise the found (first)
element is detached and the listener unregistered. -/
def unloadTikZJax (d : DomDoc) : Except String DomDoc :=
  match getElementById d "tikzjax" with
  | none => .error "TypeError: s is null"
  | some _ =>
      .ok (removeEventListener
        { d with body := d.body.eraseP (fun e => e.idAttr == "tikzjax") }
        tikzListener)

/-! Section: the uuidv4 textual format. -/

def isHexLower (c : Char) : Bool :=
  ('0' ≤ c && c ≤ '9') || ('a' ≤ c && c ≤ 'f')

/-- Whether character `c` is allowed at position `i` of a version-4 UUID in
its standard textual form `xxxxxxxx-xxxx-4xxx-yxxx-xxxxxxxxxxxx` with
`y` one of `8`, `9`, `a`, `b`. -/
def uuidCharOk (i : Nat) (c : Char) : Bool :=
  if i == 8 || i == 13 || i == 18 || i == 23 then c == '-'
  else if i == 14 then c == '4'
  else if i == 19 then c == '8' || c == '9' || c == 'a' || c == 'b'
  else isHexLower c

/-- Whether `s` has the exact textual form of a version-4 UUID, i.e. is a possible
return value of `uuidv4()`. -/
def isUuid4 (s : String) : Bool :=
  s.data.length == 36 && s.data.enum.all (fun p => uuidCharOk p.1 p.2)

/-! Section: concrete inputs used by the counterexamples and bug
demonstrations below.  The uuid values are chosen adversarially but each is
a perfectly possible return value of `uuidv4()` (checked by `isUuid4` inside
the theorems): TikZJax emits ids `a`, `b`, ... which are hexadecimal
letters, so a drawn uuid containing such a letter is the common case, not a
rarity. -/

/-- A v4 uuid containing neither `a` nor `b`. -/
def uuidA : String := "11111111-1111-4111-9111-111111111111"

/-- A second v4 uuid containing neither `a` nor `b`. -/
def uuidB : String := "22222222-2222-4222-9222-222222222222"

/-- A third v4 uuid containing neither `a` nor `b`. -/
def uuidC : String := "33333333-3333-4333-9333-333333333333"

/-- A v4 uuid whose variant nibble is the hex letter `b`. -/
def uuidHexB : String := "11111111-1111-4111-b111-111111111111"

/-- Graphic children for C1: two elements share the id `a`, a reference to
`#a`, an element with id `ab` (of which `a` is a substring) and a reference
to `#ab`.  `querySelectorAll('[id]')` returns the ids `a`, `a`, `ab` in
document order. -/
def c1Input : String :=
  "<circle id=\"a\"></circle><rect id=\"a\"></rect><use href=\"#a\"></use><g id=\"ab\"></g><use href=\"#ab\"></use>"

/-- The innerHTML `isolateIds` produces on `c1Input` (computed below): both
`id` attributes that were `a` hold the same first uuid, and the `ab` element
holds the first uuid with a trailing `b` instead of its own fresh uuid. -/
def c1Result : String :=
  "<circle id=\"11111111-1111-4111-9111-111111111111\"></circle><rect id=\"11111111-1111-4111-9111-111111111111\"></rect><use href=\"#11111111-1111-4111-9111-111111111111\"></use><g id=\"11111111-1111-4111-9111-111111111111b\"></g><use href=\"#11111111-1111-4111-9111-111111111111b\"></use>"

/-- Graphic children for C2: ids `a` then `b` in document order. -/
def c2Input : String := "<circle id=\"a\"></circle><rect id=\"b\"></rect>"

/-- The tikz block of the C3 scenario. -/
def scenarioInput : String :=
  "%color: red\n%padding: 4px\n\\begin{tikzpicture}\n\\end{tikzpicture}"

/-- A document whose body already contains an element with the well-known id
`tikzjax` (for the C7 counterexample). -/
def dirtyDoc : DomDoc := ⟨[⟨"script", "tikzjax"⟩], []⟩

/-! Section: helper lemmas about the substitution scan. -/

theorem hasSub_cons (pat : List Char) (c : Char) (cs : List Char) :
    hasSub pat (c :: cs) = (pat.isPrefixOf (c :: cs) || hasSub pat cs) := rfl

/-- A scan that never finds a pattern occurrence is the identity (for any
fuel). -/
theorem substAux_id (fuel : Nat) (rules : List (List Char × List Char)) :
    ∀ l : List Char, (∀ r ∈ rules, hasSub r.1 l = false) →
      substAux fuel rules l = l := by
  induction fuel with
  | zero => intro l _; rfl
  | succ fuel ih =>
    intro l h
    match l with
    | [] => rfl
    | c :: cs =>
      have hm : matchRule rules (c :: cs) = none := by
        cases hf : matchRule rules (c :: cs) with
        | none => rfl
        | some r =>
          have hf' : List.find? (fun r => r.1.isPrefixOf (c :: cs)) rules = some r := hf
          have hr : r ∈ rules := List.mem_of_find?_eq_some hf'
          have hp : r.1.isPrefixOf (c :: cs) = true := by
            simpa using List.find?_some hf'
          have hcontra := h r hr
          rw [hasSub_cons, hp] at hcontra
          simp at hcontra
      have hcs : ∀ r ∈ rules, hasSub r.1 cs = false := by
        intro r hr
        have hfalse := h r hr
        rw [hasSub_cons] at hfalse
        exact (Bool.or_eq_false_iff.mp hfalse).2
      show substAux (fuel + 1) rules (c :: cs) = c :: cs
      simp only [substAux, hm]
      rw [ih cs hcs]

/-- Strings without any pattern occurrence are fixed by `substAll`. -/
theorem substAll_id (rules : List (List Char × List Char)) (s : String)
    (h : ∀ r ∈ rules, hasSub r.1 s.data = false) : substAll rules s = s := by
  unfold substAll
  rw [substAux_id _ _ _ h]

/-- Strings without any of the four quoted color tokens are fixed by the
recolor stage. -/
theorem colorSVG_id (s : String)
    (h : ∀ p ∈ recolorTokens, hasSub p s.data = false) :
    colorSVGinDarkMode s = s := by
  have h000 := h "\"#000\"".data (by simp [recolorTokens])
  have hblk := h "\"black\"".data (by simp [recolorTokens])
  have hfff := h "\"#fff\"".data (by simp [recolorTokens])
  have hwht := h "\"white\"".data (by simp [recolorTokens])
  have h1 : substAll darkRules1 s = s := by
    refine substAll_id _ _ (fun r hr => ?_)
    rcases List.mem_pair.mp (by simpa [darkRules1] using hr) with h' | h' <;>
      (subst h'; assumption)
  rw [colorSVGinDarkMode, h1]
  refine substAll_id _ _ (fun r hr => ?_)
  rcases List.mem_pair.mp (by simpa [darkRules2] using hr) with h' | h' <;>
    (subst h'; assumption)

/-! Section: helper lemmas about `dropWhile`, `trimL`, `splitCh`, `joinWith`. -/

theorem dropWhile_dropWhile {α : Type _} (p : α → Bool) (l : List α) :
    List.dropWhile p (List.dropWhile p l) = List.dropWhile p l := by
  induction l with
  | nil => rfl
  | cons c cs ih =>
    cases h : p c with
    | true => rw [List.dropWhile_cons, if_pos h]; exact ih
    | false =>
      rw [List.dropWhile_cons, if_neg (by simp [h]), List.dropWhile_cons,
        if_neg (by simp [h])]

/-- A prefix of a `dropWhile`-fixed list is itself `dropWhile`-fixed. -/
theorem dropWhile_eq_self_of_prefix {α : Type _} {p : α → Bool} {l B : List α}
    (hl : List.dropWhile p l = l) (hB : B <+: l) : List.dropWhile p B = B := by
  match B with
  | [] => rfl
  | b :: B' =>
    obtain ⟨t, ht⟩ := hB
    have hpb : p b = false := by
      cases hpb : p b with
      | false => rfl
      | true =>
        exfalso
        rw [← ht] at hl
        rw [List.cons_append, List.dropWhile_cons, if_pos hpb] at hl
        have hlen := congrArg List.length hl
        have hle : (List.dropWhile p (B' ++ t)).length ≤ (B' ++ t).length :=
          ((List.dropWhile_suffix p).sublist).length_le
        rw [hlen] at hle
        simp at hle
    rw [List.dropWhile_cons, if_neg (by simp [hpb])]

theorem trimL_dropWhile (l : List Char) :
    List.dropWhile isJsWs (trimL l) = trimL l := by
  have hA : List.dropWhile isJsWs (List.dropWhile isJsWs l) =
      List.dropWhile isJsWs l := dropWhile_dropWhile _ _
  refine dropWhile_eq_self_of_prefix hA ?_
  have hsuf : ((l.dropWhile isJsWs).reverse.dropWhile isJsWs) <:+
      (l.dropWhile isJsWs).reverse := List.dropWhile_suffix _
  have := List.reverse_prefix.mpr hsuf
  simpa using this

/-- JavaScript `trim` is idempotent. -/
theorem trimL_trimL (l : List Char) : trimL (trimL l) = trimL l := by
  show ((List.dropWhile isJsWs (trimL l)).reverse.dropWhile isJsWs).reverse = trimL l
  rw [trimL_dropWhile]
  have h2 : (trimL l).reverse = (l.dropWhile isJsWs).reverse.dropWhile isJsWs := by
    unfold trimL
    rw [List.reverse_reverse]
  rw [h2, dropWhile_dropWhile]
  rfl

theorem mem_trimL {c : Char} {l : List Char} (h : c ∈ trimL l) : c ∈ l := by
  unfold trimL at h
  rw [List.mem_reverse] at h
  have h2 := (List.dropWhile_suffix isJsWs).subset h
  rw [List.mem_reverse] at h2
  exact (List.dropWhile_suffix isJsWs).subset h2

theorem splitCh_ne_nil (ch : Char) (l : List Char) : splitCh ch l ≠ [] := by
  cases l with
  | nil => simp [splitCh]
  | cons c cs =>
    rw [splitCh]
    split
    · simp
    · split <;> simp

/-- The separator never occurs inside a piece produced by `splitCh`. -/
theorem not_mem_splitCh (ch : Char) :
    ∀ l : List Char, ∀ p ∈ splitCh ch l, ch ∉ p := by
  intro l
  induction l with
  | nil =>
    intro p hp
    simp [splitCh] at hp
    subst hp
    simp
  | cons c cs ih =>
    intro p hp
    rw [splitCh] at hp
    by_cases h : c == ch
    · rw [if_pos h] at hp
      rcases List.mem_cons.mp hp with h1 | h1
      · subst h1; simp
      · exact ih p h1
    · rw [if_neg h] at hp
      cases hsp : splitCh ch cs with
      | nil => exact absurd hsp (splitCh_ne_nil ch cs)
      | cons q qs =>
        rw [hsp] at hp
        rcases List.mem_cons.mp hp with h1 | h1
        · subst h1
          intro hmem
          rcases List.mem_cons.mp hmem with h2 | h2
          · exact h (by simp [h2])
          · exact ih q (by rw [hsp]; exact List.mem_cons_self q qs) h2
        · exact ih p (by rw [hsp]; exact List.mem_cons_of_mem q h1)

/-- Splitting a separator-free list yields that list as the one piece. -/
theorem splitCh_eq_single {ch : Char} :
    ∀ {p : List Char}, ch ∉ p → splitCh ch p = [p]
  | [], _ => rfl
  | c :: cs, h => by
    have hc : ¬(c == ch) := by
      simp only [List.mem_cons, not_or] at h
      simp [beq_iff_eq]
      exact fun hcc => h.1 hcc.symm
    have hcs : ch ∉ cs := by
      simp only [List.mem_cons, not_or] at h
      exact h.2
    rw [splitCh, if_neg hc, splitCh_eq_single hcs]

/-- Splitting `p ++ ch :: r` with `ch ∉ p` peels off the piece `p`. -/
theorem splitCh_append (ch : Char) :
    ∀ (p r : List Char), ch ∉ p →
      splitCh ch (p ++ ch :: r) = p :: splitCh ch r
  | [], r, _ => by
    rw [List.nil_append, splitCh, if_pos (by simp)]
  | c :: cs, r, h => by
    have hc : ¬(c == ch) := by
      simp only [List.mem_cons, not_or] at h
      simp [beq_iff_eq]
      exact fun hcc => h.1 hcc.symm
    have hcs : ch ∉ cs := by
      simp only [List.mem_cons, not_or] at h
      exact h.2
    rw [List.cons_append, splitCh, if_neg hc, splitCh_append ch cs r hcs]

/-- Splitting the join of separator-free pieces recovers the pieces. -/
theorem splitCh_joinWith (ch : Char) :
    ∀ L : List (List Char), (∀ p ∈ L, ch ∉ p) → L ≠ [] →
      splitCh ch (joinWith [ch] L) = L
  | [], _, hne => absurd rfl hne
  | [p], h, _ => by
    rw [joinWith, splitCh_eq_single (h p (List.mem_singleton_self p))]
  | p :: q :: ps, h, _ => by
    rw [joinWith]
    have : p ++ [ch] ++ joinWith [ch] (q :: ps) =
        p ++ ch :: joinWith [ch] (q :: ps) := by simp
    rw [this, splitCh_append ch p _ (h p (List.mem_cons_self p _)),
      splitCh_joinWith ch (q :: ps) (fun x hx => h x (List.mem_cons_of_mem p hx))
        (by simp)]
/-- Re-tidying a list of normalized lines (newline-free, trim-fixed,
non-empty) recovers exactly those lines. -/
theorem tidy_of_normalized (L : List (List Char))
    (h : ∀ p ∈ L, '\n' ∉ p ∧ trimL p = p ∧ (!p.isEmpty) = true) :
    ((splitCh '\n' (joinWith ['\n'] L)).map trimL).filter (fun l => !l.isEmpty) = L := by
  cases L with
  | nil => rfl
  | cons p ps =>
    rw [splitCh_joinWith '\n' (p :: ps) (fun q hq => (h q hq).1) (by simp)]
    have hmap : (p :: ps).map trimL = p :: ps := by
      have := List.map_congr_left (l := p :: ps) (f := trimL) (g := id)
        (fun q hq => (h q hq).2.1)
      simpa using this
    rw [hmap]
    exact List.filter_eq_self.mpr (fun q hq => (h q hq).2.2)

/-- Each tidied line is newline-free, trim-fixed and non-empty. -/
theorem tidyLines_normalized (s : String) :
    ∀ p ∈ tidyLines s, '\n' ∉ p ∧ trimL p = p ∧ (!p.isEmpty) = true := by
  intro p hp
  unfold tidyLines at hp
  obtain ⟨hp', hfil⟩ := List.mem_filter.mp hp
  obtain ⟨q, hq, rfl⟩ := List.mem_map.mp hp'
  refine ⟨?_, trimL_trimL q, hfil⟩
  intro hmem
  exact not_mem_splitCh '\n' _ q hq (mem_trimL hmem)

/-! Section: helper lemmas about `jsFindIndex` (`Array.findIndex`). -/

/-- Taking up to the first index failing `p` is `takeWhile p`. -/
theorem jsFindIndex_take {α : Type _} (p : α → Bool) :
    ∀ l : List α,
      (match jsFindIndex (fun a => !p a) l with
       | none => l
       | some i => l.take i) = l.takeWhile p := by
  intro l
  induction l with
  | nil => rfl
  | cons c cs ih =>
    rw [jsFindIndex]
    cases hp : p c with
    | true =>
      rw [if_neg (by simp [hp])]
      cases hfi : jsFindIndex (fun a => !p a) cs with
      | none =>
        rw [hfi] at ih
        simp only [Option.map_none']
        rw [List.takeWhile_cons, if_pos hp]
        exact congrArg (c :: ·) (by simpa using ih)
      | some i =>
        rw [hfi] at ih
        simp only [Option.map_some']
        rw [List.takeWhile_cons, if_pos hp]
        exact congrArg (c :: ·) (by simpa using ih)
    | false =>
      rw [if_pos (by simp [hp]), List.takeWhile_cons, if_neg (by simp [hp])]
      rfl

/-- Dropping from the first index failing `p` (or everything when every
element satisfies `p`) is `dropWhile p`. -/
theorem jsFindIndex_drop {α : Type _} (p : α → Bool) :
    ∀ l : List α,
      (match jsFindIndex (fun a => !p a) l with
       | none => ([] : List α)
       | some i => l.drop i) = l.dropWhile p := by
  intro l
  induction l with
  | nil => rfl
  | cons c cs ih =>
    rw [jsFindIndex]
    cases hp : p c with
    | true =>
      rw [if_neg (by simp [hp])]
      cases hfi : jsFindIndex (fun a => !p a) cs with
      | none =>
        rw [hfi] at ih
        simp only [Option.map_none']
        rw [List.dropWhile_cons, if_pos hp]
        simpa using ih
      | some i =>
        rw [hfi] at ih
        simp only [Option.map_some']
        rw [List.dropWhile_cons, if_pos hp]
        simpa using ih
    | false =>
      rw [if_pos (by simp [hp]), List.dropWhile_cons, if_neg (by simp [hp])]
      rfl


/-- The style region equals the `takeWhile` of the style-line test: the code
computes it through `findIndex` of the first non-style line. -/
theorem tikzStyleRegion_eq (s : String) :
    tikzStyleRegion s = (tikzLines s).takeWhile isStyleLine :=
  jsFindIndex_take isStyleLine (tikzLines s)

/-- The code lines equal the `dropWhile` of the style-line test. -/
theorem tikzCodeLines_eq (s : String) :
    tikzCodeLines s = (tikzLines s).dropWhile isStyleLine :=
  jsFindIndex_drop isStyleLine (tikzLines s)

/-! Section: the claims. -/

set_option maxRecDepth 100000

/-- C1 (code_bug demonstration): `isolateIds` does NOT guarantee that no two
elements share an identifier afterwards, nor that references point at the
fresh identifier assigned to their element.  On a graphic whose descendants
carry ids `a`, `a`, `ab` (document order), with perfectly legal `uuidv4()`
draws, the full-text replacement passes leave BOTH formerly-`a` elements
with the SAME first uuid (`id="uuidA"` occurs twice), and the `ab` element
ends up with `uuidA ++ "b"` while its assigned fresh uuids (`uuidB` for the
second `a`, `uuidC` for `ab`) never occur in the result at all. -/
theorem c1_isolateIds_not_isolating :
    isUuid4 uuidA = true ∧ isUuid4 uuidB = true ∧ isUuid4 uuidC = true
    ∧ isolateIds ["a", "a", "ab"] [uuidA, uuidB, uuidC] ⟨"svg", [], c1Input⟩ =
        ⟨"svg", [], c1Result⟩
    ∧ countSub ("id=\"" ++ uuidA ++ "\"").data c1Result.data = 2
    ∧ hasSub uuidB.data c1Result.data = false
    ∧ hasSub uuidC.data c1Result.data = false := by
  refine ⟨by decide, by decide, by decide, by decide, by decide, by decide, by decide⟩

/-- C2 (code_bug demonstration): a later full-text replacement pass CAN
match inside, and alter, a previously substituted fresh identifier.  With
descendant ids `a` then `b` and a first uuid draw containing the hex letter
`b` (`uuidHexB`), the first pass writes `uuidHexB` into the markup, and the
second pass (`replaceAll "b" uuidB`) rewrites the `b` inside it: `uuidHexB`
occurs after the first pass but no longer occurs after the second, and the
second uuid appears twice (once inside the corrupted first id). -/
theorem c2_isolateIds_chained_replacement :
    isUuid4 uuidHexB = true ∧ isUuid4 uuidB = true
    ∧ hasSub uuidHexB.data
        ((isolateIds ["a"] [uuidHexB] ⟨"svg", [], c2Input⟩).inner).data = true
    ∧ hasSub uuidHexB.data
        ((isolateIds ["a", "b"] [uuidHexB, uuidB] ⟨"svg", [], c2Input⟩).inner).data
        = false
    ∧ countSub uuidB.data
        ((isolateIds ["a", "b"] [uuidHexB, uuidB] ⟨"svg", [], c2Input⟩).inner).data
        = 2 := by
  refine ⟨by decide, by decide, by decide, by decide, by decide⟩

/-- C3 (counterexample): a style-comment line whose `%` is preceded by
whitespace does NOT get its `%` stripped — the strip regex `/^%\s*/` is
anchored at the start of the raw line.  On the block `"\t%x\ny"` the parser
produces the declaration `"%x"`, not `"x"` as the claim predicts. -/
theorem c3_counterexample :
    isStyleLine "\t%x".data = true
    ∧ tikzStyleLines "\t%x\ny" = ["%x"]
    ∧ tikzStyleLines "\t%x\ny" ≠ ["x"] := by
  refine ⟨by decide, by decide, by decide⟩

/-- C3 (amended): the style prefix is exactly the leading `takeWhile` of
lines whose first non-whitespace character is `%`; each such line is
processed by stripping the `%` and following whitespace ONLY when the `%` is
the line's very first character (otherwise the line is kept as-is), then
trimmed, discarded when empty, appended in order; and the quoted scenario
behaves exactly as stated. -/
theorem c3_style_comment_parsing :
    (∀ s : String, tikzStyleLines s =
      ((tikzLines s).takeWhile isStyleLine).filterMap (fun l =>
        let t := trimL (stripStylePct l)
        if t.isEmpty then none else some (String.mk t)))
    ∧ (∀ s : String, tikzCodeLines s = (tikzLines s).dropWhile isStyleLine)
    ∧ (∀ rest : List Char, stripStylePct ('%' :: rest) = rest.dropWhile isJsWs)
    ∧ (∀ c : Char, ∀ rest : List Char, c ≠ '%' → stripStylePct (c :: rest) = c :: rest)
    ∧ tikzStyleLines scenarioInput = ["color: red", "padding: 4px"]
    ∧ tikzCssString scenarioInput = "color: red; padding: 4px"
    ∧ tikzCleanedSource scenarioInput = "\\begin{tikzpicture}\n\\end{tikzpicture}"
    ∧ tikzScriptText scenarioInput = "\\begin{tikzpicture}\n\\end{tikzpicture}" := by
  refine ⟨?_, ?_, ?_, ?_, by decide, by decide, by decide, by decide⟩
  · intro s
    unfold tikzStyleLines
    rw [tikzStyleRegion_eq]
  · intro s
    exact tikzCodeLines_eq s
  · intro rest
    rfl
  · intro c rest hc
    simp [stripStylePct, hc]

/-- Witness for C3's amended theorem at concrete inputs. -/
theorem c3_style_comment_parsing_witness :
    stripStylePct ('x' :: []) = 'x' :: [] :=
  c3_style_comment_parsing.2.2.2.1 'x' [] (by decide)

/-- C4: the recolor stage rewrites exactly the quoted literal tokens
`"#000"`/`"black"` (to `"currentColor"`) and `"#fff"`/`"white"` (to
`"var(--background-primary)"`): any string containing none of the four
quoted tokens is returned unchanged — in particular unquoted, differently
capitalized, or longer color tokens such as `"#000000"` survive — and each
quoted token is rewritten to its replacement. -/
theorem c4_recolor_exact_tokens :
    (∀ s : String, (∀ p ∈ recolorTokens, hasSub p s.data = false) →
      colorSVGinDarkMode s = s)
    ∧ colorSVGinDarkMode "\"#000\"" = "\"currentColor\""
    ∧ colorSVGinDarkMode "\"black\"" = "\"currentColor\""
    ∧ colorSVGinDarkMode "\"#fff\"" = "\"var(--background-primary)\""
    ∧ colorSVGinDarkMode "\"white\"" = "\"var(--background-primary)\""
    ∧ colorSVGinDarkMode "\"#000000\"" = "\"#000000\""
    ∧ colorSVGinDarkMode "black" = "black"
    ∧ colorSVGinDarkMode "\"Black\"" = "\"Black\""
    ∧ colorSVGinDarkMode "fill=\"#00f\" stroke=\"blue\"" = "fill=\"#00f\" stroke=\"blue\"" := by
  refine ⟨fun s h => colorSVG_id s h, by decide, by decide, by decide, by decide,
    by decide, by decide, by decide, by decide⟩

/-- Witness for C4 at a concrete token-free input. -/
theorem c4_recolor_exact_tokens_witness :
    colorSVGinDarkMode "<svg><g fill=\"red\"></g></svg>" =
      "<svg><g fill=\"red\"></g></svg>" :=
  c4_recolor_exact_tokens.1 _ (by decide)

/-- C5 (counterexample): `tidyTikzSource` is NOT idempotent.  The single
left-to-right `&nbsp;` removal pass can splice a new `&nbsp;` together from
overlapping fragments: on `"&n&nbsp;bsp;"` one tidy yields `"&nbsp;"` and a
second tidy yields `""`. -/
theorem c5_counterexample :
    tidyTikzSource "&n&nbsp;bsp;" = "&nbsp;"
    ∧ tidyTikzSource (tidyTikzSource "&n&nbsp;bsp;") = ""
    ∧ tidyTikzSource (tidyTikzSource "&n&nbsp;bsp;") ≠ tidyTikzSource "&n&nbsp;bsp;" := by
  refine ⟨by decide, by decide, by decide⟩

/-- C5 (amended): `tidyTikzSource` is idempotent on every input whose tidied
form contains no literal `&nbsp;` occurrence (the only way a second pass can
differ is the removal pass reconstructing that sequence). -/
theorem c5_tidy_idempotent (s : String)
    (h : hasSub "&nbsp;".data (tidyTikzSource s).data = false) :
    tidyTikzSource (tidyTikzSource s) = tidyTikzSource s := by
  have hsub : substAll nbspRule (tidyTikzSource s) = tidyTikzSource s := by
    refine substAll_id _ _ ?_
    intro r hr
    have hre : r = ("&nbsp;".data, ([] : List Char)) := by simpa [nbspRule] using hr
    rw [hre]
    exact h
  have hTL : tidyLines (tidyTikzSource s) = tidyLines s := by
    unfold tidyLines
    rw [hsub]
    exact tidy_of_normalized (tidyLines s) (tidyLines_normalized s)
  show String.mk (joinWith ['\n'] (tidyLines (tidyTikzSource s))) = tidyTikzSource s
  rw [hTL]
  rfl

/-- Witness for C5's amended theorem at a concrete input. -/
theorem c5_tidy_idempotent_witness :
    tidyTikzSource (tidyTikzSource "  a\n\nb  ") = tidyTikzSource "  a\n\nb  " :=
  c5_tidy_idempotent "  a\n\nb  " (by decide)

/-- C6: `postProcessSvg` applies the stages in the fixed order isolate →
recolor → minimize on the event's target graphic: `isolateIds` and the
minimizer run unconditionally, `colorSVGinDarkMode` runs if and only if
`settings.invertColorsInDarkMode` is true, and the returned markup (written
back to `outerHTML` in the single final assignment) is exactly that
composition. -/
theorem c6_postprocess_pipeline_order (opt : String → String)
    (settings : TikzjaxPluginSettings) (ids uuids : List String) (r : RootEl) :
    postProcessSvg opt settings ids uuids r =
      opt ((if settings.invertColorsInDarkMode then colorSVGinDarkMode else fun x => x)
        ((isolateIds ids uuids r).outerHTML))
    ∧ (settings.invertColorsInDarkMode = true →
        postProcessSvg opt settings ids uuids r =
          opt (colorSVGinDarkMode ((isolateIds ids uuids r).outerHTML)))
    ∧ (settings.invertColorsInDarkMode = false →
        postProcessSvg opt settings ids uuids r =
          opt ((isolateIds ids uuids r).outerHTML)) := by
  cases hf : settings.invertColorsInDarkMode <;> simp [postProcessSvg, hf]

/-- Witness for C6 at concrete inputs (inversion disabled). -/
theorem c6_postprocess_pipeline_order_witness :
    postProcessSvg (fun x => x) ⟨false⟩ [] [] ⟨"svg", [], "inner"⟩ =
      (isolateIds [] [] ⟨"svg", [], "inner"⟩).outerHTML :=
  (c6_postprocess_pipeline_order (fun x => x) ⟨false⟩ [] [] ⟨"svg", [], "inner"⟩).2.2 rfl

/-- C7 (counterexample): on a document whose body ALREADY contains an
element with id `tikzjax`, `loadTikZJax` then `unloadTikZJax` does NOT leave
the document free of such elements: `getElementById` finds the first one, so
one `tikzjax` script remains in the body. -/
theorem c7_counterexample :
    unloadTikZJax (loadTikZJax dirtyDoc) =
      Except.ok ⟨[⟨"script", "tikzjax"⟩], []⟩
    ∧ ((⟨[⟨"script", "tikzjax"⟩], []⟩ : DomDoc).body.any
        (fun e => e.idAttr == "tikzjax")) = true := by
  refine ⟨rfl, by decide⟩

/-- C7 (amended): on every document with no pre-existing element with id
`tikzjax` (and with the DOM invariant that the completion-listener key is
registered at most once), `loadTikZJax` followed by `unloadTikZJax` succeeds
and returns the document with its body exactly restored and the completion
listener absent; when the listener was not registered before the injection,
the document is restored exactly. -/
theorem c7_load_unload_restores (d : DomDoc)
    (h1 : ∀ e ∈ d.body, e.idAttr ≠ "tikzjax")
    (h2 : List.count tikzListener d.listeners ≤ 1) :
    unloadTikZJax (loadTikZJax d) =
      Except.ok ⟨d.body, d.listeners.erase tikzListener⟩
    ∧ tikzListener ∉ d.listeners.erase tikzListener
    ∧ (tikzListener ∉ d.listeners → unloadTikZJax (loadTikZJax d) = Except.ok d) := by
  have hfind : List.find? (fun e => e.idAttr == "tikzjax") d.body = none :=
    List.find?_eq_none.mpr (fun e he => by simp [h1 e he])
  have hfindall :
      List.find? (fun e => e.idAttr == "tikzjax")
        (d.body ++ [⟨"script", "tikzjax"⟩]) = some ⟨"script", "tikzjax"⟩ := by
    rw [List.find?_append, hfind]
    rfl
  have hbody :
      List.eraseP (fun e => e.idAttr == "tikzjax")
        (d.body ++ [⟨"script", "tikzjax"⟩]) = d.body := by
    rw [List.eraseP_append_right _ (fun b hb => by simp [h1 b hb])]
    simp [List.eraseP_cons_of_pos]
  have hload_body : (loadTikZJax d).body = d.body ++ [⟨"script", "tikzjax"⟩] := by
    unfold loadTikZJax addEventListener
    split <;> rfl
  have hmain : unloadTikZJax (loadTikZJax d) =
      Except.ok ⟨d.body, (loadTikZJax d).listeners.erase tikzListener⟩ := by
    unfold unloadTikZJax getElementById removeEventListener
    rw [hload_body, hfindall]
    simp [hload_body, hbody]
  have hlst : (loadTikZJax d).listeners.erase tikzListener =
      d.listeners.erase tikzListener := by
    unfold loadTikZJax addEventListener
    by_cases hmem : tikzListener ∈ d.listeners
    · rw [if_pos hmem]
    · rw [if_neg hmem]
      show (d.listeners ++ [tikzListener]).erase tikzListener =
        d.listeners.erase tikzListener
      rw [List.erase_append_right _ hmem, List.erase_of_not_mem hmem]
      simp
  have hnomem : tikzListener ∉ d.listeners.erase tikzListener := by
    intro hin
    have hcount := List.count_erase_self tikzListener d.listeners
    have hpos := List.count_pos_iff.mpr hin
    rw [hcount] at hpos
    omega
  refine ⟨by rw [hmain, hlst], hnomem, fun hnm => ?_⟩
  rw [hmain, hlst, List.erase_of_not_mem hnm]

/-- Witness for C7's amended theorem on the empty document. -/
theorem c7_load_unload_restores_witness :
    unloadTikZJax (loadTikZJax ⟨[], []⟩) = Except.ok ⟨[], []⟩ :=
  (c7_load_unload_restores ⟨[], []⟩ (by simp) (by simp)).2.2 (by simp)

/-- C8: calling `unloadTikZJax` on a document with no element carrying the
well-known id `tikzjax` raises a fault (`getElementById` yields `null` and
`s.remove()` throws a `TypeError`) rather than completing as a no-op. -/
theorem c8_unload_missing_faults (d : DomDoc)
    (h : ∀ e ∈ d.body, e.idAttr ≠ "tikzjax") :
    unloadTikZJax d = Except.error "TypeError: s is null" := by
  unfold unloadTikZJax getElementById
  rw [List.find?_eq_none.mpr (fun e he => by simp [h e he])]

/-- Witness for C8 on the empty document. -/
theorem c8_unload_missing_faults_witness :
    unloadTikZJax ⟨[], []⟩ = Except.error "TypeError: s is null" :=
  c8_unload_missing_faults ⟨[], []⟩ (by simp)

/-- C9 (counterexample): `colorSVGinDarkMode` is NOT idempotent.  On
`"#000"black"` (quote characters shared between adjacent tokens) the first
application leaves the text `"black"` intact — its opening quote was
consumed by the `"#000"` match — but the replacement `"currentColor"`
re-supplies a closing quote, so a second application rewrites `"black"` as
well. -/
theorem c9_counterexample :
    colorSVGinDarkMode "\"#000\"black\"" = "\"currentColor\"black\""
    ∧ colorSVGinDarkMode (colorSVGinDarkMode "\"#000\"black\"") =
        "\"currentColor\"currentColor\""
    ∧ colorSVGinDarkMode (colorSVGinDarkMode "\"#000\"black\"") ≠
        colorSVGinDarkMode "\"#000\"black\"" := by
  refine ⟨by decide, by decide, by decide⟩

/-- C9 (amended): `colorSVGinDarkMode` is idempotent on every input whose
output contains none of the four quoted tokens (the failure mode is exactly
a token surviving in the output through quote sharing with an adjacent
match). -/
theorem c9_recolor_idempotent (s : String)
    (h : ∀ p ∈ recolorTokens, hasSub p (colorSVGinDarkMode s).data = false) :
    colorSVGinDarkMode (colorSVGinDarkMode s) = colorSVGinDarkMode s :=
  colorSVG_id _ h

/-- Witness for C9's amended theorem at a concrete input. -/
theorem c9_recolor_idempotent_witness :
    colorSVGinDarkMode (colorSVGinDarkMode "\"#000\"") = colorSVGinDarkMode "\"#000\"" :=
  c9_recolor_idempotent "\"#000\"" (by decide)

/-- C10: `isolateIds` never modifies the root element it is given: its tag
and its own attributes — including an id attribute carried by the root
itself, which is never isolated since `querySelectorAll` only returns
descendants — are unchanged; only `innerHTML` is rewritten. -/
theorem c10_isolateIds_root_untouched (ids uuids : List String) (r : RootEl) :
    (isolateIds ids uuids r).tag = r.tag
    ∧ (isolateIds ids uuids r).attrs = r.attrs
    ∧ (∀ v : String, List.lookup "id" r.attrs = some v →
        List.lookup "id" (isolateIds ids uuids r).attrs = some v) :=
  ⟨rfl, rfl, fun _ hv => hv⟩

/-- Witness for C10: a root carrying `id="root"` keeps it verbatim. -/
theorem c10_isolateIds_root_untouched_witness :
    List.lookup "id" (isolateIds ["a"] [uuidA]
      ⟨"svg", [("id", "root")], "<g id=\"a\"></g>"⟩).attrs = some "root" :=
  (c10_isolateIds_root_untouched ["a"] [uuidA]
    ⟨"svg", [("id", "root")], "<g id=\"a\"></g>"⟩).2.2 "root" (by decide)

end Tikzjax
